import Mathlib

/-!
Verification of the MultiAgentAISystem repository (JAFS framework).

The Python sources are shallowly embedded as Lean definitions:

* `src/MultiAgentAISystem/jafs.py` — the task-mode classifier `detect_task_type`.
* `src/bin/jafs/models/ollama_model.py` — tool-call extraction in
  `generate_with_tools` and the structured-JSON recovery in `extract_json`.
* `src/jafs/core/orchestrator.py` — `execute_task`, `get_task_history`,
  `_load_config` and `_merge_configs`.
* `src/bin/jafs/tools/direct_response.py` — `DirectResponseTool._execute`.

Strings are modelled as `List Char` so every operation is structurally
recursive and kernel-computable.  The Python standard-library JSON codec
(`json.loads` / `json.dumps`) is an external collaborator of the embedded
code: it is passed in as an explicit function parameter
(`parse : List Char → Option Jv`, `dumps : Jv → List Char`) and concrete
oracles are supplied in witnesses.  Machine floats do not occur in any
verified path (the sole float literal `0.0` in the default configuration is
modelled as the numeric literal `0`).
-/

/-- Characters stripped by Python's `str.strip()` with no argument
(ASCII whitespace: space, tab, newline, carriage return, vertical tab,
form feed). -/
def pySpace (c : Char) : Bool :=
  c = ' ' || c = '\t' || c = '\n' || c = '\x0d' || c = '\x0b' || c = '\x0c'

/-- Python `str.strip()`: remove leading and trailing whitespace. -/
def pyStrip (s : List Char) : List Char :=
  ((s.dropWhile pySpace).reverse.dropWhile pySpace).reverse

/-- Python `str.split("\n")`: split on every newline, keeping empty pieces
(so `"".split("\n") = [""]` and a trailing newline yields a final `""`). -/
def splitNl : List Char → List (List Char)
  | [] => [[]]
  | '\n' :: rest => [] :: splitNl rest
  | c :: rest =>
    match splitNl rest with
    | l :: ls => (c :: l) :: ls
    | [] => [[c]]

/-- Whether `p` is a leading segment of `s` (all characters equal). -/
def leadsWith : List Char → List Char → Bool
  | [], _ => true
  | _ :: _, [] => false
  | a :: as, b :: bs => if a = b then leadsWith as bs else false

/-- Whether `pat` occurs as a contiguous segment of `s`. -/
def containsSeg (s pat : List Char) : Bool :=
  match s with
  | [] => leadsWith pat []
  | _ :: rest => leadsWith pat s || containsSeg rest pat

/-- Fuel-driven worker for `replaceAll`; fuel `= s.length` always suffices
because every step consumes at least one character of `s`. -/
def replaceGo (old new : List Char) : Nat → List Char → List Char
  | _, [] => []
  | 0, s => s
  | Nat.succ fuel, c :: rest =>
    if old ≠ [] && leadsWith old (c :: rest) then
      new ++ replaceGo old new fuel (List.drop (old.length - 1) rest)
    else
      c :: replaceGo old new fuel rest

/-- Python `str.replace(old, new)` for a non-empty `old`: replace every
non-overlapping occurrence, scanning left to right. -/
def replaceAll (s old new : List Char) : List Char :=
  replaceGo old new s.length s

/-- JSON values, as delivered by the external `json.loads` collaborator.
Numbers are modelled as integers; no verified path inspects a numeric
payload. -/
inductive Jv where
  | null
  | bool (b : Bool)
  | num (n : Int)
  | str (s : String)
  | arr (items : List Jv)
  | obj (fields : List (String × Jv))

/-- Whether a JSON value is an object (a Python `dict`). -/
def Jv.isObj : Jv → Bool
  | Jv.obj _ => true
  | _ => false

/-- First-match association-list lookup: Python `dict[k]` / `dict.get(k)`
(parsed dicts and config dicts have unique keys, so first match is the
match). -/
def alookup {α : Type} : List (String × α) → String → Option α
  | [], _ => Option.none
  | (k, v) :: rest, key => if k = key then some v else alookup rest key

/-- Python `dict[k] = v`: replace the value at an existing key in place,
otherwise append the binding at the end. -/
def setKey {α : Type} : List (String × α) → String → α → List (String × α)
  | [], k, v => [(k, v)]
  | (k', v') :: rest, k, v =>
    if k' = k then (k, v) :: rest else (k', v') :: setKey rest k v

/-- One normalized tool call produced by `generate_with_tools`
(`ollama_model.py` lines 235-239).  `name` and `arguments` are copied
verbatim from the parsed entry, so they keep the JSON type they had there. -/
structure ToolCall where
  id : String
  name : Jv
  arguments : Jv

/-- The fenced-block scanner of `generate_with_tools`
(`ollama_model.py` lines 206-219): walk the lines; a line whose stripped
text is exactly a fence marker (with or without the `json` tag) toggles
block state; lines inside a block are accumulated with a trailing newline;
an unterminated block is discarded. -/
def scanBlocks : List (List Char) → Bool → List Char → List (List Char)
  | [], _, _ => []
  | line :: rest, inBlock, acc =>
    if pyStrip line = "```json".toList || pyStrip line = "```".toList then
      if inBlock then acc :: scanBlocks rest false []
      else scanBlocks rest true []
    else if inBlock then scanBlocks rest inBlock (acc ++ line ++ ['\n'])
    else scanBlocks rest false acc

/-- All fenced JSON candidate payloads of a completion, in order. -/
def fencedBlocks (response : List Char) : List (List Char) :=
  scanBlocks (splitNl response) false []

/-- Normalization loop over the entries of a `tool_calls` array
(`ollama_model.py` lines 234-240).  `idx` is `len(tool_calls)` at entry, the
running global count.  A non-dict entry makes Python's `tool_call.get`
raise inside the per-block `try`, so processing stops there: the calls
already appended are kept and the second component is `false` (the
exception also skips the later content removal). -/
def normalizeEntries (idx : Nat) : List Jv → List ToolCall × Bool
  | [] => ([], true)
  | Jv.obj f :: rest =>
    let tc : ToolCall :=
      ⟨"call_" ++ toString idx,
       (alookup f "name").getD (Jv.str ""),
       (alookup f "arguments").getD (Jv.obj [])⟩
    let r := normalizeEntries (idx + 1) rest
    (tc :: r.1, r.2)
  | _ :: _ => ([], false)

/-- Effect of iterating `data["tool_calls"]` when the key is present
(`ollama_model.py` line 234).  Iterating a Python value that is not a list
either performs zero iterations (empty string, empty dict — the removal
still runs) or raises on the first step (non-empty string or dict yields
non-dict items for `.get`; numbers, booleans and null are not iterable), in
which case nothing is appended and the removal is skipped. -/
def iterToolCalls (idx : Nat) : Jv → List ToolCall × Bool
  | Jv.arr entries => normalizeEntries idx entries
  | Jv.str s => ([], s = "")
  | Jv.obj f => ([], f.isEmpty)
  | _ => ([], false)

/-- The (never-matching, see `toolcall_roundtrip_bug`) content removal of
`ollama_model.py` lines 242-244: each scanned block already carries a final
newline, and the pattern appends another before the closing fence. -/
def removeBlock (content block : List Char) : List Char :=
  let p1 := "```json\n".toList ++ block ++ "\n```".toList
  let p2 := "```\n".toList ++ block ++ "\n```".toList
  replaceAll (replaceAll content p1 []) p2 []

/-- The per-block loop of `generate_with_tools` (`ollama_model.py` lines
229-246): parse each candidate payload with the external `json.loads`
(`parse`); a parse failure, a payload that is not a dict, or one without a
`tool_calls` key is skipped; otherwise the entries are normalized with
globally increasing ids and, when iteration finished without raising, the
fenced form of the block is removed from the running content. -/
def processBlocks (parse : List Char → Option Jv) :
    List (List Char) → Nat → List Char → List ToolCall × List Char
  | [], _, content => ([], content)
  | b :: rest, idx, content =>
    match parse b with
    | some (Jv.obj fields) =>
      match alookup fields "tool_calls" with
      | some tv =>
        let r := iterToolCalls idx tv
        let content1 := if r.2 then removeBlock content b else content
        let r2 := processBlocks parse rest (idx + r.1.length) content1
        (r.1 ++ r2.1, r2.2)
      | Option.none => processBlocks parse rest idx content
    | some _ => processBlocks parse rest idx content
    | Option.none => processBlocks parse rest idx content

/-- The candidate payloads `generate_with_tools` will process
(`ollama_model.py` lines 206-227): the fenced blocks, or — only when there
are none — the whole response re-serialized through `json.dumps` when it
parses as JSON. -/
def candidateBlocks (parse : List Char → Option Jv) (dumps : Jv → List Char)
    (response : List Char) : List (List Char) :=
  match fencedBlocks response with
  | [] =>
    match parse response with
    | some j => [dumps j]
    | Option.none => []
  | b :: bs => b :: bs

/-- The result dictionary of `generate_with_tools`. -/
structure GenToolsResult where
  content : List Char
  tool_calls : List ToolCall

/-- The tool-call extraction of `generate_with_tools`
(`ollama_model.py` lines 201-251), with the model call already performed:
`response` is the completion text, `parse`/`dumps` the external JSON codec.
Returns the stripped remaining content and the normalized tool calls. -/
def generate_with_tools (parse : List Char → Option Jv) (dumps : Jv → List Char)
    (response : List Char) : GenToolsResult :=
  let r := processBlocks parse (candidateBlocks parse dumps response) 0 response
  ⟨pyStrip r.2, r.1⟩

/-- Strategy 2 of `extract_json` (`ollama_model.py` lines 298-303): the
first line whose stripped text starts with an opening brace, ends with a
closing brace, and parses as JSON. -/
def firstLineJson (parse : List Char → Option Jv) : List (List Char) → Option Jv
  | [] => Option.none
  | line :: rest =>
    let s := pyStrip line
    if leadsWith ['\x7b'] s && leadsWith ['\x7d'] s.reverse then
      match parse s with
      | some j => some j
      | Option.none => firstLineJson parse rest
    else firstLineJson parse rest

/-- Strategy 3 of `extract_json` (`ollama_model.py` lines 305-325): the
first fenced block that parses as JSON. -/
def firstBlockJson (parse : List Char → Option Jv) : List (List Char) → Option Jv
  | [] => Option.none
  | b :: rest =>
    match parse b with
    | some j => some j
    | Option.none => firstBlockJson parse rest

/-- The JSON recovery of `extract_json` (`ollama_model.py` lines 292-329),
with the model call already performed: try the whole response, then
brace-delimited single lines, then fenced blocks, and fall back to an
error object instead of raising. -/
def extract_json (parse : List Char → Option Jv) (response : List Char) : Jv :=
  match parse response with
  | some j => j
  | Option.none =>
    match firstLineJson parse (splitNl response) with
    | some j => j
    | Option.none =>
      match firstBlockJson parse (fencedBlocks response) with
      | some j => j
      | Option.none => Jv.obj [("error", Jv.str "Failed to parse JSON response")]

/-- A regex word character (`\w`) as relevant here: the embedding covers
the ASCII alphabet the keyword lists live in. -/
def isWordChar (c : Char) : Bool := c.isAlphanum || c = '_'

/-- `kw` matches at the head of `s` with a word boundary after it: `kw` is
a leading segment of `s` and the following character, if any, is not a
word character.  (All keywords end in a word character, so the trailing
`\b` is exactly this condition.) -/
def kwAt : List Char → List Char → Bool
  | [], [] => true
  | [], c :: _ => !isWordChar c
  | _ :: _, [] => false
  | k :: kt, c :: st => if k = c then kwAt kt st else false

/-- Scanning worker for `wbMatch`: `prevWord` records whether the
character just before the current position is a word character. -/
def wbSearch (kw : List Char) : List Char → Bool → Bool
  | [], _ => false
  | c :: rest, prevWord =>
    (!prevWord && kwAt kw (c :: rest)) || wbSearch kw rest (isWordChar c)

/-- Python `re.search(r'\b' + kw + r'\b', s) is not None` for a keyword
that starts and ends with a word character (true of every keyword below):
some position of `s` preceded by start-of-text or a non-word character
carries `kw` followed by end-of-text or a non-word character. -/
def wbMatch (kw s : List Char) : Bool := wbSearch kw s false

/-- Python `str.lower()` (ASCII, which covers the keyword alphabet). -/
def pyLower (s : List Char) : List Char := s.map Char.toLower

/-- The research keyword list of `detect_task_type` (`jafs.py` 31-34). -/
def research_keywords : List String :=
  ["research", "find", "search", "look up", "investigate",
   "analyze", "study", "explore", "learn about"]

/-- The calculation keyword list of `detect_task_type` (`jafs.py` 37-40). -/
def calc_keywords : List String :=
  ["calculate", "compute", "solve", "evaluate", "what is",
   "how much", "add", "subtract", "multiply", "divide"]

/-- The creative keyword list of `detect_task_type` (`jafs.py` 43-46). -/
def creative_keywords : List String :=
  ["create", "generate", "write", "compose", "design",
   "develop", "make", "build", "draft"]

/-- Whether any keyword of the list matches the lowercased task text with
word boundaries.  Each Python keyword loop sets the mode and breaks on the
first hit, which is exactly an existence check over the list. -/
def matchesAny (kws : List String) (t : List Char) : Bool :=
  kws.any fun k => wbMatch k.toList t

/-- `detect_task_type` (`jafs.py` lines 17-66): start from `auto`, then let
the research, calculation and creative categories each overwrite the mode
when they match, in that order. -/
def detect_task_type (task : String) : String :=
  let t := pyLower task.toList
  let mode := "auto"
  let mode := if matchesAny research_keywords t then "multi" else mode
  let mode := if matchesAny calc_keywords t then "single" else mode
  let mode := if matchesAny creative_keywords t then "multi" else mode
  mode

/-- `ToolResult` (`jafs.tools.base.tool_result`), as built by
`DirectResponseTool._execute`: `data` is either absent (`None`) or the
dictionary `{"content": response}`. -/
structure ToolResult where
  success : Bool
  message : String
  data : Option (List (String × String))

/-- The creative keyword list of `DirectResponseTool._is_creative_task`
(`direct_response.py` lines 53-58). -/
def dr_creative_keywords : List String :=
  ["write", "compose", "create", "generate", "draft",
   "poem", "story", "essay", "article", "letter",
   "song", "lyrics", "script", "dialogue", "narrative",
   "fiction", "creative", "imagine", "fantasy"]

/-- `DirectResponseTool._is_creative_task` (`direct_response.py` lines
43-65): word-boundary, case-insensitive search for any creative keyword. -/
def is_creative_task (prompt : String) : Bool :=
  matchesAny dr_creative_keywords (pyLower prompt.toList)

/-- Python `"needle" in s.lower()`: case-insensitive substring test, as
used by `_determine_task_type`. -/
def inLower (needle : String) (s : String) : Bool :=
  containsSeg (pyLower s.toList) needle.toList

/-- `DirectResponseTool._determine_task_type` (`direct_response.py` lines
104-131): first matching plain-substring category, else `creative text`. -/
def determine_task_type (prompt : String) : String :=
  if inLower "poem" prompt then "poem"
  else if inLower "story" prompt then "story"
  else if inLower "essay" prompt then "essay"
  else if inLower "article" prompt then "article"
  else if inLower "letter" prompt then "letter"
  else if inLower "song" prompt || inLower "lyrics" prompt then "song"
  else if inLower "script" prompt then "script"
  else if inLower "dialogue" prompt then "dialogue"
  else "creative text"

/-- Python `str.capitalize()`: uppercase the first character, lowercase
the rest (ASCII suffices for the task-type strings). -/
def pyCapitalize (s : String) : String :=
  match s.toList with
  | [] => ""
  | c :: rest => String.mk (c.toUpper :: rest.map Char.toLower)

/-- `DirectResponseTool._execute` (`direct_response.py` lines 67-102).
`parameters` maps parameter names to string values (the claim's domain:
the `prompt` value is a string).  A non-creative prompt yields a failed
`ToolResult` with no data; otherwise a placeholder response is wrapped in
a successful result.  `_create_context_prompt` is also computed by the
source (a pure regex over the prompt) but its value is discarded — the
placeholder `response` does not use it — so it does not appear here. -/
def DirectResponseTool_execute (parameters : List (String × String)) : ToolResult :=
  let prompt := (alookup parameters "prompt").getD ""
  if !is_creative_task prompt then
    ⟨false, "This doesn't seem to be a creative task. Please try a different tool.",
     Option.none⟩
  else
    let task_type := determine_task_type prompt
    let response :=
      "This is where the language model would generate a " ++ task_type ++
      " based on: " ++ prompt
    ⟨true, pyCapitalize task_type ++ " generated successfully",
     some [("content", response)]⟩

/-- Configuration values, as produced by `yaml.safe_load` and the
hard-coded default dictionary of `_load_config`.  Mapping keys are
strings, the only key type occurring in the sources.  The float literal
`0.0` of the default configuration is modelled as the numeric literal
`0`; no verified property inspects it. -/
inductive Cfg where
  | null
  | bool (b : Bool)
  | int (n : Int)
  | str (s : String)
  | list (xs : List Cfg)
  | dict (fields : List (String × Cfg))

mutual

/-- `AgentOrchestrator._merge_configs` (`orchestrator.py` lines 266-285):
start from a copy of `default` and, for each override binding in order,
store the merged value at its key. -/
def merge_configs : List (String × Cfg) → List (String × Cfg) → List (String × Cfg)
  | result, [] => result
  | result, (k, v) :: rest =>
    merge_configs (setKey result k (mergeVal (alookup result k) v)) rest
termination_by _ ov => sizeOf ov

/-- The per-key rule of `_merge_configs` (`orchestrator.py` lines 279-283):
when both the present default value and the override value are mappings,
merge recursively; otherwise the override value replaces the default. -/
def mergeVal : Option Cfg → Cfg → Cfg
  | some (Cfg.dict d), Cfg.dict o => Cfg.dict (merge_configs d o)
  | _, v => v
termination_by _ v => sizeOf v

end

/-- The hard-coded default configuration of `_load_config`
(`orchestrator.py` lines 212-240). -/
def default_config : List (String × Cfg) :=
  [("agent", Cfg.dict
      [("name", Cfg.str "jafs"),
       ("mode", Cfg.str "single"),
       ("max_iterations", Cfg.int 10),
       ("complexity_threshold", Cfg.int 7)]),
   ("memory", Cfg.dict
      [("short_term", Cfg.dict
          [("capacity", Cfg.int 1000),
           ("ttl", Cfg.int 3600)]),
       ("long_term", Cfg.dict
          [("enabled", Cfg.bool true),
           ("storage_path", Cfg.null),
           ("index_in_memory", Cfg.bool true)])]),
   ("models", Cfg.dict
      [("default", Cfg.dict
          [("provider", Cfg.str "openai"),
           ("model", Cfg.str "gpt-4"),
           ("temperature", Cfg.int 0)])]),
   ("tools", Cfg.dict
      [("enabled", Cfg.list [])])]

/-- `AgentOrchestrator._load_config` (`orchestrator.py` lines 201-264).
The file system and the YAML parser are external collaborators:
`fileExists` is `os.path.exists(config_path)`, and `loaded` is
`some cfg` exactly when the `try` block's read, `yaml.safe_load` and the
merge all succeed — i.e. the file was readable and parsed to a mapping
(`safe_load` returning a non-mapping makes `_merge_configs` raise on
`override.items()`, landing in the same `except` branch, so it is
modelled by `Option.none` too). -/
def load_config (fileExists : Bool)
    (loaded : Option (List (String × Cfg))) : List (String × Cfg) :=
  if !fileExists then default_config
  else
    match loaded with
    | Option.none => default_config
    | some config => merge_configs default_config config

/-- A task record as built by `execute_task` (`orchestrator.py` lines
122-129).  Times are opaque wall-clock values supplied by the `time`
collaborator; the agent's result is an opaque value. -/
structure TaskRecord where
  task : String
  mode : String
  start_time : Int
  execution_time : Int
  status : String
  result : Jv

/-- The orchestrator state touched by `execute_task`: the merged
configuration, the append-only task history and the last result. -/
structure OrchState where
  config : List (String × Cfg)
  task_history : List TaskRecord
  last_result : Jv

/-- The configured default mode, `self.config.get("agent", {}).get("mode",
"single")` (`orchestrator.py` line 97).  A present but non-mapping
`agent` value would make Python raise before anything is appended to the
history; the embedding covers the non-raising executions, so a
non-mapping shape falls back to the default the same way absence does. -/
def configDefaultMode (config : List (String × Cfg)) : String :=
  match alookup config "agent" with
  | some (Cfg.dict agent) =>
    match alookup agent "mode" with
    | some (Cfg.str m) => m
    | _ => "single"
  | _ => "single"

/-- `AgentOrchestrator.execute_task` (`orchestrator.py` lines 84-143), with
the external collaborators as parameters: `agentResult` is what
`self.primary_agent.execute(task, mode=mode)` returned and `start_time` /
`execution_time` come from the `time` collaborator.  The easter-egg and
logging statements only affect log output.  Returns the new state and the
result. -/
def execute_task (st : OrchState) (task : String) (mode : Option String)
    (agentResult : Jv) (start_time execution_time : Int) : OrchState × Jv :=
  let m := match mode with
    | some m => m
    | Option.none => configDefaultMode st.config
  let task_record : TaskRecord :=
    ⟨task, m, start_time, execution_time, "completed", agentResult⟩
  ({ st with
      task_history := st.task_history ++ [task_record],
      last_result := agentResult },
   agentResult)

/-- `AgentOrchestrator.get_task_history` (`orchestrator.py` lines 177-190):
`self.task_history[-limit:]`.  For a positive `limit`, Python's negative
slice start `-limit` is clamped to `0` when `limit ≥ len`, giving the last
`min limit len` records; for `limit = 0` the slice start is `-0 = 0`, so
the whole history is returned. -/
def get_task_history (history : List TaskRecord) (limit : Nat) : List TaskRecord :=
  if limit = 0 then history else history.drop (history.length - limit)

/-- The `tool_calls` entries a candidate payload contributes: the array
under the `tool_calls` key of a payload that parses to a dict, and nothing
otherwise. -/
def blockEntries (parse : List Char → Option Jv) (b : List Char) : List Jv :=
  match parse b with
  | some (Jv.obj f) =>
    match alookup f "tool_calls" with
    | some (Jv.arr es) => es
    | _ => []
  | _ => []

/-- All `tool_calls` entries across a completion's candidate payloads, in
payload order. -/
def concatEntries (parse : List Char → Option Jv) : List (List Char) → List Jv
  | [] => []
  | b :: rest => blockEntries parse b ++ concatEntries parse rest

/-- The normalized tool call for entry `e` at global position `idx`
(`ollama_model.py` lines 235-239); the non-dict branch is never reached
under the well-formedness hypothesis of `toolcall_ids_sequential`. -/
def mkCall (idx : Nat) : Jv → ToolCall
  | Jv.obj f =>
    ⟨"call_" ++ toString idx,
     (alookup f "name").getD (Jv.str ""),
     (alookup f "arguments").getD (Jv.obj [])⟩
  | _ => ⟨"call_" ++ toString idx, Jv.str "", Jv.obj []⟩

/-- Normalization of a list of entries with globally sequential ids
starting at `idx`. -/
def enumCalls (idx : Nat) : List Jv → List ToolCall
  | [] => []
  | e :: rest => mkCall idx e :: enumCalls (idx + 1) rest

/-- The prompt `_execute` reads from its parameters
(`direct_response.py` line 77: `parameters.get("prompt", "")`). -/
def promptOf (parameters : List (String × String)) : String :=
  (alookup parameters "prompt").getD ""

/-- A completion with exactly one fenced JSON block holding one tool call
(the spec's round-trip example, with a proper newline before the fence so
the fence markers sit on their own lines as the scanner requires). -/
def respC1 : String :=
  "Sure!\n```json\n\x7b\"tool_calls\": [\x7b\"name\": \"search\", \"arguments\": \x7b\"q\": \"cats\"\x7d\x7d]\x7d\n```"

/-- The payload text the scanner extracts from `respC1` (the JSON line
plus the trailing newline the scanner appends). -/
def blockC1 : List Char :=
  "\x7b\"tool_calls\": [\x7b\"name\": \"search\", \"arguments\": \x7b\"q\": \"cats\"\x7d\x7d]\x7d\n".toList

/-- Concrete `json.loads` oracle for `respC1`: its one candidate payload
parses to the one-entry `tool_calls` object. -/
def parseC1 : List Char → Option Jv := fun s =>
  if s = blockC1 then
    some (Jv.obj [("tool_calls", Jv.arr
      [Jv.obj [("name", Jv.str "search"), ("arguments", Jv.obj [("q", Jv.str "cats")])]])])
  else Option.none

/-- A `json.dumps` oracle for runs whose candidate blocks are fenced, so
the serializer is never consulted. -/
def dumpsNone : Jv → List Char := fun _ => []

/-- A completion whose only fenced block is malformed JSON. -/
def respC3 : String := "hi\n```json\nnotjson\n```"

/-- The `json.loads` oracle on which every payload is malformed. -/
def parseNone : List Char → Option Jv := fun _ => Option.none

/-- A completion with two fenced blocks, each a `tool_calls` payload. -/
def respC7 : String := "a\n```\nX\n```\nb\n```\nY\n```"

/-- Concrete `json.loads` oracle for `respC7`: the first block has two
tool-call entries (one empty, one with only a name), the second block one
entry with only arguments — exercising the defaults and the global id
counter across payloads. -/
def parseC7 : List Char → Option Jv := fun s =>
  if s = "X\n".toList then
    some (Jv.obj [("tool_calls", Jv.arr [Jv.obj [], Jv.obj [("name", Jv.str "t1")]])])
  else if s = "Y\n".toList then
    some (Jv.obj [("tool_calls", Jv.arr [Jv.obj [("arguments", Jv.obj [("p", Jv.num 2)])]])])
  else Option.none

/-- A response whose second line is a brace-delimited JSON object (for the
`extract_json` strategy-order witness). -/
def respC8 : String := "noise\n \x7b\"k\": 1\x7d \nmore"

/-- Concrete `json.loads` oracle for `respC8`: only the stripped second
line parses. -/
def parseC8 : List Char → Option Jv := fun s =>
  if s = "\x7b\"k\": 1\x7d".toList then some (Jv.obj [("k", Jv.num 1)]) else Option.none

/-- A one-record history for the `get_task_history` theorems. -/
def histW : List TaskRecord := [⟨"t", "single", 0, 0, "completed", Jv.null⟩]

/-- A default configuration fragment for the merge witness. -/
def dfltW : List (String × Cfg) :=
  [("a", Cfg.int 1), ("m", Cfg.dict [("x", Cfg.int 1), ("y", Cfg.int 2)])]

/-- An override fragment for the merge witness: a nested-dict override and
a fresh key. -/
def ovW : List (String × Cfg) :=
  [("m", Cfg.dict [("y", Cfg.int 3)]), ("b", Cfg.int 5)]

/-- An initial orchestrator state for the `execute_task` witness. -/
def stW : OrchState := ⟨[], [], Jv.null⟩

/-- The record `execute_task` appends in the witness run. -/
def recW : TaskRecord := ⟨"t", "single", 0, 1, "completed", Jv.str "r"⟩

/-- C2: classifier precedence and mapping — `detect_task_type` evaluates
the research, calculation and creative keyword sets in that order
(word-boundary, case-insensitive), each later matching category
overwriting the mode set by an earlier one; research and creative map to
`multi`, calculation maps to `single`, and a text matching no category
yields `auto`.  In particular a text matching only a calculation keyword
yields `single`, and one matching both a calculation and a creative
keyword yields `multi`. -/
theorem classifier_precedence (task : String) :
    detect_task_type task =
      (if matchesAny creative_keywords (pyLower task.toList) then "multi"
       else if matchesAny calc_keywords (pyLower task.toList) then "single"
       else if matchesAny research_keywords (pyLower task.toList) then "multi"
       else "auto") := by
  cases hcr : matchesAny creative_keywords (pyLower task.toList) <;>
    cases hc : matchesAny calc_keywords (pyLower task.toList) <;>
      cases hr : matchesAny research_keywords (pyLower task.toList) <;>
        simp only [detect_task_type, hcr, hc, hr, if_true, if_false,
          Bool.false_eq_true, Bool.true_eq_false, ite_true, ite_false]

/-- C9: config load fallback — a missing file or a failed read/parse makes
`_load_config` return the hard-coded defaults, and a successful load is the
right-biased merge over the defaults; the embedded function is total, so
loading never raises out of the orchestrator. -/
theorem load_config_fallback :
    (∀ loaded, load_config false loaded = default_config)
    ∧ load_config true Option.none = default_config
    ∧ ∀ cfg, load_config true (some cfg) = merge_configs default_config cfg :=
  ⟨fun _ => rfl, rfl, fun _ => rfl⟩

/-- C5: every record `execute_task` adds to the task history carries the
literal status `completed`, regardless of the agent's result — so a record
with status `incomplete` or `failed` can never enter the history. -/
theorem execute_task_history_status (st : OrchState) (task : String)
    (mode : Option String) (agentResult : Jv) (t0 dt : Int) :
    ∀ r ∈ ((execute_task st task mode agentResult t0 dt).1).task_history,
      r ∈ st.task_history ∨
        (r.status = "completed" ∧ r.status ≠ "incomplete" ∧ r.status ≠ "failed") := by
  intro r hr
  simp only [execute_task, List.mem_append, List.mem_singleton] at hr
  rcases hr with h | h
  · exact Or.inl h
  · subst h
    refine Or.inr ⟨rfl, ?_, ?_⟩
    · show ("completed" : String) ≠ "incomplete"
      decide
    · show ("completed" : String) ≠ "failed"
      decide

/-- Witness for C5 at a concrete state: the record the call appends is in
the new history and satisfies the status property. -/
theorem execute_task_history_status_w :
    recW ∈ ((execute_task stW "t" Option.none (Jv.str "r") 0 1).1).task_history
    ∧ (recW ∈ stW.task_history ∨
        (recW.status = "completed" ∧ recW.status ≠ "incomplete" ∧ recW.status ≠ "failed")) := by
  have hm : recW ∈ ((execute_task stW "t" Option.none (Jv.str "r") 0 1).1).task_history := by
    simp [execute_task, stW, recW, configDefaultMode, alookup]
  exact ⟨hm, execute_task_history_status stW "t" Option.none (Jv.str "r") 0 1 recW hm⟩

/-- C6 counterexample: at `limit = 0` the claim fails — `task_history[-0:]`
is the whole history, not the most recent `min 0 len = 0` records. -/
theorem get_task_history_zero_cex :
    ¬ ((get_task_history histW 0).length = min 0 histW.length) := by
  decide

/-- C6 (amended): for every positive `limit`, `get_task_history` returns
exactly the most recent `min limit len` records of the history, in order
with the most recent record last (a suffix of the history of that
length); at `limit = 0` the whole history is returned instead. -/
theorem get_task_history_most_recent (history : List TaskRecord) (limit : Nat)
    (h : 0 < limit) :
    get_task_history history limit <:+ history
    ∧ (get_task_history history limit).length = min limit history.length := by
  unfold get_task_history
  rw [if_neg (Nat.pos_iff_ne_zero.mp h)]
  refine ⟨List.drop_suffix _ _, ?_⟩
  rw [List.length_drop]
  omega

/-- Witness for C6 (amended) at `limit = 1` on a one-record history. -/
theorem get_task_history_most_recent_w :
    0 < 1 ∧ (get_task_history histW 1 <:+ histW
      ∧ (get_task_history histW 1).length = min 1 histW.length) :=
  ⟨Nat.one_pos, get_task_history_most_recent histW 1 Nat.one_pos⟩

/-- C10: `DirectResponseTool._execute` is total on parameter mappings whose
prompt is a string; its success flag is exactly the creative-keyword test
(word-boundary, case-insensitive), and a non-creative prompt yields a
failed result carrying no generated content. -/
theorem direct_response_total (parameters : List (String × String)) :
    (DirectResponseTool_execute parameters).success = is_creative_task (promptOf parameters)
    ∧ (is_creative_task (promptOf parameters) = false →
        (DirectResponseTool_execute parameters).data = Option.none) := by
  unfold DirectResponseTool_execute promptOf
  cases h : is_creative_task ((alookup parameters "prompt").getD "") <;> simp [h]

/-- Witness for C10: a non-creative prompt yields no data, a creative
prompt succeeds. -/
theorem direct_response_total_w :
    (DirectResponseTool_execute [("prompt", "hello")]).data = Option.none
    ∧ (DirectResponseTool_execute [("prompt", "write a poem")]).success = true :=
  ⟨(direct_response_total [("prompt", "hello")]).2 rfl,
   ((direct_response_total [("prompt", "write a poem")]).1).trans rfl⟩

/-- C8: `extract_json` tries the whole response, then brace-delimited
single lines, then fenced blocks, in that order, returning the first
successful parse; if every strategy fails it returns the parse-error
object instead of raising. -/
theorem extract_json_strategy_order (parse : List Char → Option Jv) (resp : List Char) :
    (∀ j, parse resp = some j → extract_json parse resp = j)
    ∧ (∀ j, parse resp = Option.none →
        firstLineJson parse (splitNl resp) = some j → extract_json parse resp = j)
    ∧ (∀ j, parse resp = Option.none →
        firstLineJson parse (splitNl resp) = Option.none →
        firstBlockJson parse (fencedBlocks resp) = some j →
        extract_json parse resp = j)
    ∧ (parse resp = Option.none →
        firstLineJson parse (splitNl resp) = Option.none →
        firstBlockJson parse (fencedBlocks resp) = Option.none →
        extract_json parse resp
          = Jv.obj [("error", Jv.str "Failed to parse JSON response")]) := by
  refine ⟨?_, ?_, ?_, ?_⟩
  · intro j h1; unfold extract_json; rw [h1]
  · intro j h1 h2; unfold extract_json; rw [h1, h2]
  · intro j h1 h2 h3; unfold extract_json; rw [h1, h2, h3]
  · intro h1 h2 h3; unfold extract_json; rw [h1, h2, h3]

/-- Witness for C8: on `respC8` the whole-response strategy fails and the
single-line strategy recovers the object. -/
theorem extract_json_strategy_order_w :
    extract_json parseC8 respC8.toList = Jv.obj [("k", Jv.num 1)] :=
  (extract_json_strategy_order parseC8 respC8.toList).2.1 _ rfl rfl

/-- C1: evaluation at the failing input.  The completion `respC1` holds
exactly one fenced JSON block with one tool call; extraction does yield
exactly one `ToolCall` with id `call_0`, but the visible content is the
whole completion, unchanged — it still contains the fenced block, because
the removal pattern `f"(fence)json\n{json_block}\n(fence)"` appends a
newline to a scanned block that already ends in one, so `str.replace`
never finds it.  This contradicts the claimed round-trip (and the code's
own `Remove the JSON block from the content` comment). -/
theorem toolcall_roundtrip_bug :
    (generate_with_tools parseC1 dumpsNone respC1.toList).tool_calls
      = [⟨"call_0", Jv.str "search", Jv.obj [("q", Jv.str "cats")]⟩]
    ∧ (generate_with_tools parseC1 dumpsNone respC1.toList).content = respC1.toList
    ∧ containsSeg (generate_with_tools parseC1 dumpsNone respC1.toList).content
        ("```json\n".toList ++ blockC1) = true :=
  ⟨rfl, rfl, rfl⟩

/-- Parse failures skip payloads without contributing calls or touching
the content: a block list on which every payload fails to parse processes
to no calls and the untouched content. -/
theorem processBlocks_all_fail (parse : List Char → Option Jv)
    (blocks : List (List Char)) (idx : Nat) (content : List Char)
    (h : ∀ b ∈ blocks, parse b = Option.none) :
    processBlocks parse blocks idx content = ([], content) := by
  induction blocks with
  | nil => rfl
  | cons b rest ih =>
    have hb : parse b = Option.none := h b (List.mem_cons_self b rest)
    have hr : ∀ x ∈ rest, parse x = Option.none :=
      fun x hx => h x (List.mem_cons_of_mem b hx)
    simp [processBlocks, hb, ih hr]

/-- C3: extraction tolerance — when a completion has fenced candidate
payloads and every one of them fails to parse, extraction returns zero
tool calls and the whole completion text trimmed of leading/trailing
whitespace; moreover a single payload's parse failure never aborts the
processing of the remaining payloads. -/
theorem extraction_tolerance (parse : List Char → Option Jv) (dumps : Jv → List Char)
    (resp : List Char)
    (hne : fencedBlocks resp ≠ [])
    (hall : ∀ b ∈ fencedBlocks resp, parse b = Option.none) :
    generate_with_tools parse dumps resp = ⟨pyStrip resp, []⟩
    ∧ ∀ (bad : List Char) (blocks : List (List Char)) (idx : Nat) (content : List Char),
        parse bad = Option.none →
        processBlocks parse (bad :: blocks) idx content
          = processBlocks parse blocks idx content := by
  constructor
  · rcases h : fencedBlocks resp with _ | ⟨b, bs⟩
    · exact absurd h hne
    · simp [generate_with_tools, candidateBlocks, h,
        processBlocks_all_fail parse (b :: bs) 0 resp (h ▸ hall)]
  · intro bad blocks idx content hbad
    simp [processBlocks, hbad]

/-- Witness for C3: a completion whose only fenced block is malformed
falls back to the trimmed completion and no tool calls, and a failing
payload in front of a block list changes nothing. -/
theorem extraction_tolerance_w :
    generate_with_tools parseNone dumpsNone respC3.toList = ⟨respC3.toList, []⟩
    ∧ processBlocks parseNone ["zz".toList] 0 [] = processBlocks parseNone [] 0 [] := by
  have h := extraction_tolerance parseNone dumpsNone respC3.toList (by decide)
    (fun b _ => rfl)
  exact ⟨h.1.trans rfl, h.2 "zz".toList [] 0 [] rfl⟩

/-- Sequential normalization distributes over appending entry lists,
shifting the start index by the length of the first part. -/
theorem enumCalls_append (idx : Nat) (l1 l2 : List Jv) :
    enumCalls idx (l1 ++ l2) = enumCalls idx l1 ++ enumCalls (idx + l1.length) l2 := by
  induction l1 generalizing idx with
  | nil => simp [enumCalls]
  | cons e rest ih =>
    have harith : idx + 1 + rest.length = idx + (rest.length + 1) := by omega
    simp [enumCalls, ih, harith]

/-- Normalization produces one call per entry. -/
theorem enumCalls_length (idx : Nat) (es : List Jv) :
    (enumCalls idx es).length = es.length := by
  induction es generalizing idx with
  | nil => rfl
  | cons e rest ih => simp [enumCalls, ih]

/-- On a list of dict entries, the normalization loop finishes without
raising and produces exactly the sequentially-indexed calls. -/
theorem normalizeEntries_all_obj (idx : Nat) (es : List Jv)
    (h : ∀ e ∈ es, Jv.isObj e = true) :
    normalizeEntries idx es = (enumCalls idx es, true) := by
  induction es generalizing idx with
  | nil => rfl
  | cons e rest ih =>
    have hrest : ∀ x ∈ rest, Jv.isObj x = true :=
      fun x hx => h x (List.mem_cons_of_mem e hx)
    cases e with
    | obj f => simp [normalizeEntries, enumCalls, mkCall, ih _ hrest]
    | null => exact absurd (h _ (List.mem_cons_self _ _)) (by simp [Jv.isObj])
    | bool b => exact absurd (h _ (List.mem_cons_self _ _)) (by simp [Jv.isObj])
    | num n => exact absurd (h _ (List.mem_cons_self _ _)) (by simp [Jv.isObj])
    | str s => exact absurd (h _ (List.mem_cons_self _ _)) (by simp [Jv.isObj])
    | arr l => exact absurd (h _ (List.mem_cons_self _ _)) (by simp [Jv.isObj])

/-- The id of the `k`-th normalized call is `call_{idx + k}`. -/
theorem enumCalls_id_get : ∀ (es : List Jv) (idx k : Nat)
    (hk : k < (enumCalls idx es).length),
    ((enumCalls idx es).get ⟨k, hk⟩).id = "call_" ++ toString (idx + k)
  | [], _, k, hk => absurd hk (by simp [enumCalls])
  | e :: rest, idx, 0, hk => by
    cases e <;> simp [enumCalls, mkCall]
  | e :: rest, idx, Nat.succ k, hk => by
    have hk' : k < (enumCalls (idx + 1) rest).length := by
      simpa [enumCalls] using hk
    have := enumCalls_id_get rest (idx + 1) k hk'
    simp only [enumCalls, List.get_cons_succ, this]
    have harith : idx + 1 + k = idx + (k + 1) := by omega
    rw [harith]

/-- The calls collected by the per-block loop are exactly the sequential
normalization of all entries across payloads, provided every entry is a
dict. -/
theorem processBlocks_calls (parse : List Char → Option Jv)
    (blocks : List (List Char)) (idx : Nat) (content : List Char)
    (h : ∀ e ∈ concatEntries parse blocks, Jv.isObj e = true) :
    (processBlocks parse blocks idx content).1
      = enumCalls idx (concatEntries parse blocks) := by
  induction blocks generalizing idx content with
  | nil => rfl
  | cons b rest ih =>
    have hb : ∀ e ∈ blockEntries parse b, Jv.isObj e = true := by
      intro e he
      exact h e (by simp [concatEntries, List.mem_append]; exact Or.inl he)
    have hr : ∀ e ∈ concatEntries parse rest, Jv.isObj e = true := by
      intro e he
      exact h e (by simp [concatEntries, List.mem_append]; exact Or.inr he)
    cases hp : parse b with
    | none =>
      have hbe : blockEntries parse b = [] := by simp [blockEntries, hp]
      simp [processBlocks, hp, concatEntries, hbe, ih _ _ hr]
    | some data =>
      cases data with
      | obj fields =>
        cases hl : alookup fields "tool_calls" with
        | none =>
          have hbe : blockEntries parse b = [] := by simp [blockEntries, hp, hl]
          simp [processBlocks, hp, hl, concatEntries, hbe, ih _ _ hr]
        | some tv =>
          cases tv with
          | arr es =>
            have hbe : blockEntries parse b = es := by simp [blockEntries, hp, hl]
            have hes : ∀ e ∈ es, Jv.isObj e = true := hbe ▸ hb
            have hnorm := normalizeEntries_all_obj idx es hes
            simp [processBlocks, hp, hl, iterToolCalls, hnorm, concatEntries, hbe,
              enumCalls_append, enumCalls_length, ih _ _ hr]
          | null =>
            have hbe : blockEntries parse b = [] := by simp [blockEntries, hp, hl]
            simp [processBlocks, hp, hl, iterToolCalls, concatEntries, hbe, ih _ _ hr]
          | bool v =>
            have hbe : blockEntries parse b = [] := by simp [blockEntries, hp, hl]
            simp [processBlocks, hp, hl, iterToolCalls, concatEntries, hbe, ih _ _ hr]
          | num n =>
            have hbe : blockEntries parse b = [] := by simp [blockEntries, hp, hl]
            simp [processBlocks, hp, hl, iterToolCalls, concatEntries, hbe, ih _ _ hr]
          | str s =>
            have hbe : blockEntries parse b = [] := by simp [blockEntries, hp, hl]
            simp [processBlocks, hp, hl, iterToolCalls, concatEntries, hbe, ih _ _ hr]
          | obj o =>
            have hbe : blockEntries parse b = [] := by simp [blockEntries, hp, hl]
            simp [processBlocks, hp, hl, iterToolCalls, concatEntries, hbe, ih _ _ hr]
      | null =>
        have hbe : blockEntries parse b = [] := by simp [blockEntries, hp]
        simp [processBlocks, hp, concatEntries, hbe, ih _ _ hr]
      | bool v =>
        have hbe : blockEntries parse b = [] := by simp [blockEntries, hp]
        simp [processBlocks, hp, concatEntries, hbe, ih _ _ hr]
      | num n =>
        have hbe : blockEntries parse b = [] := by simp [blockEntries, hp]
        simp [processBlocks, hp, concatEntries, hbe, ih _ _ hr]
      | str s =>
        have hbe : blockEntries parse b = [] := by simp [blockEntries, hp]
        simp [processBlocks, hp, concatEntries, hbe, ih _ _ hr]
      | arr l =>
        have hbe : blockEntries parse b = [] := by simp [blockEntries, hp]
        simp [processBlocks, hp, concatEntries, hbe, ih _ _ hr]

/-- C7: ToolCall normalization — across an entire completion whose
payload entries are dicts, the extracted calls are exactly the entries of
the successfully parsed payloads, in order, normalized with ids
`call_{i}` where `i` is the zero-based global count (not reset per
payload, hence unique and ordered) and with name defaulting to the empty
string and arguments to the empty mapping when absent. -/
theorem toolcall_ids_sequential (parse : List Char → Option Jv)
    (dumps : Jv → List Char) (resp : List Char)
    (h : ∀ e ∈ concatEntries parse (candidateBlocks parse dumps resp),
      Jv.isObj e = true) :
    (generate_with_tools parse dumps resp).tool_calls
      = enumCalls 0 (concatEntries parse (candidateBlocks parse dumps resp))
    ∧ ∀ (k : Nat) (hk : k < (generate_with_tools parse dumps resp).tool_calls.length),
        ((generate_with_tools parse dumps resp).tool_calls.get ⟨k, hk⟩).id
          = "call_" ++ toString k := by
  have hmain : (generate_with_tools parse dumps resp).tool_calls
      = enumCalls 0 (concatEntries parse (candidateBlocks parse dumps resp)) := by
    simp only [generate_with_tools]
    exact processBlocks_calls parse _ 0 resp h
  refine ⟨hmain, ?_⟩
  intro k hk
  have hk2 : k < (enumCalls 0 (concatEntries parse (candidateBlocks parse dumps resp))).length := by
    rw [← hmain]; exact hk
  calc ((generate_with_tools parse dumps resp).tool_calls.get ⟨k, hk⟩).id
      = ((enumCalls 0 (concatEntries parse (candidateBlocks parse dumps resp))).get
          ⟨k, hk2⟩).id := by
        congr 1
        exact List.get_of_eq hmain ⟨k, hk⟩
    _ = "call_" ++ toString (0 + k) := enumCalls_id_get _ 0 k hk2
    _ = "call_" ++ toString k := by rw [Nat.zero_add]

/-- Witness for C7: two fenced payloads with two and one entries yield
ids `call_0`, `call_1`, `call_2` with defaulted names and arguments. -/
theorem toolcall_ids_sequential_w :
    (generate_with_tools parseC7 dumpsNone respC7.toList).tool_calls
      = [⟨"call_0", Jv.str "", Jv.obj []⟩,
         ⟨"call_1", Jv.str "t1", Jv.obj []⟩,
         ⟨"call_2", Jv.str "", Jv.obj [("p", Jv.num 2)]⟩] :=
  ((toolcall_ids_sequential parseC7 dumpsNone respC7.toList (by decide)).1).trans rfl

/-- Looking up the key just stored finds the stored value. -/
theorem alookup_setKey_self {α : Type} (m : List (String × α)) (k : String) (v : α) :
    alookup (setKey m k v) k = some v := by
  induction m with
  | nil => simp [setKey, alookup]
  | cons p rest ih =>
    obtain ⟨k', v'⟩ := p
    by_cases h : k' = k
    · subst h; simp [setKey, alookup]
    · simp [setKey, alookup, h, ih]

/-- Storing at one key leaves lookups at other keys unchanged. -/
theorem alookup_setKey_ne {α : Type} (m : List (String × α)) (k k2 : String)
    (v : α) (h : k2 ≠ k) :
    alookup (setKey m k2 v) k = alookup m k := by
  induction m with
  | nil => simp [setKey, alookup, h]
  | cons p rest ih =>
    obtain ⟨k', v'⟩ := p
    by_cases h2 : k' = k2
    · subst h2; simp [setKey, alookup, h]
    · by_cases h3 : k' = k
      · subst h3; simp [setKey, alookup, h2]
      · simp [setKey, alookup, h2, h3, ih]

/-- A key absent from the key list is not found. -/
theorem alookup_eq_none {α : Type} (m : List (String × α)) (k : String)
    (h : k ∉ m.map Prod.fst) : alookup m k = Option.none := by
  induction m with
  | nil => rfl
  | cons p rest ih =>
    obtain ⟨k', v'⟩ := p
    simp only [List.map_cons, List.mem_cons] at h
    push_neg at h
    have h1 : ¬ (k' = k) := fun e => h.1 e.symm
    simp [alookup, h1, ih h.2]

/-- C4: config merge law — `_merge_configs` is right-biased and recursive.
For every key of the override (unique keys, as Python dicts have): if both
the default and override values at that key are mappings, the merge maps
the key to their recursive merge, and otherwise to the override value
(`mergeVal` is exactly this case split); every key not in the override
keeps its default lookup, so default-only keys survive and override-only
keys are added. -/
theorem merge_configs_right_biased (dflt ov : List (String × Cfg))
    (hnd : (ov.map Prod.fst).Nodup) (k : String) :
    (∀ v, alookup ov k = some v →
      alookup (merge_configs dflt ov) k = some (mergeVal (alookup dflt k) v))
    ∧ (alookup ov k = Option.none →
      alookup (merge_configs dflt ov) k = alookup dflt k) := by
  induction ov generalizing dflt with
  | nil =>
    constructor
    · intro v hv; simp [alookup] at hv
    · intro _; simp [merge_configs]
  | cons p rest ih =>
    obtain ⟨k', v'⟩ := p
    have hnd2 : (rest.map Prod.fst).Nodup := by
      simp only [List.map_cons, List.nodup_cons] at hnd
      exact hnd.2
    have hkn : k' ∉ rest.map Prod.fst := by
      simp only [List.map_cons, List.nodup_cons] at hnd
      exact hnd.1
    constructor
    · intro v hv
      by_cases hk : k' = k
      · subst hk
        have hvv : v' = v := by simpa [alookup] using hv
        subst hvv
        have hrest : alookup rest k' = Option.none := alookup_eq_none rest k' hkn
        have hstep := (ih (setKey dflt k' (mergeVal (alookup dflt k') v')) hnd2).2 hrest
        rw [merge_configs, hstep, alookup_setKey_self]
      · have hv2 : alookup rest k = some v := by simpa [alookup, hk] using hv
        have hstep := (ih (setKey dflt k' (mergeVal (alookup dflt k') v')) hnd2).1 v hv2
        rw [merge_configs, hstep, alookup_setKey_ne _ _ _ _ hk]
    · intro hnone
      have hk : ¬ (k' = k) := by
        intro e; subst e; simp [alookup] at hnone
      have hn2 : alookup rest k = Option.none := by simpa [alookup, hk] using hnone
      have hstep := (ih (setKey dflt k' (mergeVal (alookup dflt k') v')) hnd2).2 hn2
      rw [merge_configs, hstep, alookup_setKey_ne _ _ _ _ hk]

/-- Witness for C4: on a concrete default/override pair, the nested-dict
key merges recursively with right bias and a default-only key survives. -/
theorem merge_configs_right_biased_w :
    alookup (merge_configs dfltW ovW) "m"
      = some (mergeVal (alookup dfltW "m") (Cfg.dict [("y", Cfg.int 3)]))
    ∧ alookup (merge_configs dfltW ovW) "a" = alookup dfltW "a" :=
  ⟨(merge_configs_right_biased dfltW ovW (by decide) "m").1 _ rfl,
   (merge_configs_right_biased dfltW ovW (by decide) "a").2 rfl⟩
